import Mathlib

/-!
Verification of the tenant lifecycle and consumer orchestration core of the
salva repository.  Go functions are shallowly embedded as Lean functions:
UUIDs and timestamps become `Nat`, the empty cursor string becomes `none`,
channels and goroutine effects become explicit event traces or state records.
Each definition names the source function it embeds.
-/

namespace Salva

/-- A row of the `messages` table: `id UUID`, `tenant_id UUID`, `payload JSONB`,
`created_at TIMESTAMPTZ` (src/migrations/001_init_schema.up.sql, lines 12-18).
UUIDs and timestamps are injected into `Nat`; the payload is an opaque token. -/
structure Row where
  id : Nat
  tenantId : Nat
  payload : Nat
  createdAt : Nat
deriving DecidableEq, Repr

/-- The strict SQL ordering on `(created_at, id)` used by
`ORDER BY created_at, id` and by the cursor predicate of
`TenantManager.GetMessages` (src/unnamed/part_002, lines 280-282): `a` comes
strictly before `b` iff `a.created_at < b.created_at`, or the timestamps are
equal and `a.id < b.id`. -/
def keyLtb (a b : Row) : Bool :=
  decide (a.createdAt < b.createdAt) ||
    (decide (b.createdAt = a.createdAt) && decide (a.id < b.id))

/-- The SQL subquery `SELECT created_at FROM messages WHERE id = cursor` of
`GetMessages`: the `created_at` of the row the cursor points at (`none`
models an empty subquery result). -/
def cursorCreatedAt (s : List Row) (c : Nat) : Option Nat :=
  (s.find? (fun r => decide (r.id = c))).map (fun r => r.createdAt)

/-- The `WHERE` clause of the cursor query of `GetMessages` (part_002, line
282): `created_at > sub OR (created_at = sub AND id > cursor)`.  When the
subquery is empty the SQL comparison is against NULL, so no row qualifies. -/
def cursorPred (s : List Row) (c : Nat) (r : Row) : Bool :=
  match cursorCreatedAt s c with
  | none => false
  | some ca =>
      decide (ca < r.createdAt) || (decide (r.createdAt = ca) && decide (c < r.id))

/-- The row list produced by the SQL query of `GetMessages` (part_002, lines
279-283).  A fixed snapshot `s` is represented by its `ORDER BY created_at, id`
enumeration (the theorems assume `s` is sorted by `keyLtb`, which is the total
order the SQL guarantees when ids are unique), so `ORDER BY` is the identity
and `LIMIT limit+1` is `List.take (limit + 1)`. -/
def queryRows (s : List Row) (cursor : Option Nat) (limit : Nat) : List Row :=
  match cursor with
  | none => s.take (limit + 1)
  | some c => (s.filter (cursorPred s c)).take (limit + 1)

/-- One step of the `rows.Next()` scan loop of `GetMessages` (part_002, lines
290-299): while fewer than `limit` rows are kept, append the row and move
`nextCursor` to its id; further rows are dropped. -/
def scanStep (limit : Nat) (st : List Row × Option Nat) (m : Row) :
    List Row × Option Nat :=
  if st.1.length < limit then (st.1 ++ [m], some m.id) else st

/-- The scan loop of `GetMessages` followed by the final reset
`if len(msgs) < limit { nextCursor = "" }` (part_002, lines 288-302).  The
empty cursor string is modelled as `none`. -/
def scanRows (rows : List Row) (limit : Nat) : List Row × Option Nat :=
  let st := rows.foldl (scanStep limit) ([], none)
  (st.1, if st.1.length < limit then none else st.2)

/-- Embeds `TenantManager.GetMessages` (src/unnamed/part_002, lines 276-304) over a
fixed snapshot: run the SQL query, keep at most `limit` rows, and compute
`next_cursor`. -/
def getMessages (s : List Row) (cursor : Option Nat) (limit : Nat) :
    List Row × Option Nat :=
  scanRows (queryRows s cursor limit) limit

/-- Client traversal of `getMessages`: call, collect the page, follow
`next_cursor` until it is empty.  `fuel` bounds the number of calls. -/
def traverseFrom (s : List Row) (limit : Nat) : Nat → Option Nat → List Row
  | 0, _ => []
  | fuel + 1, cur =>
      match getMessages s cur limit with
      | (msgs, none) => msgs
      | (msgs, some c) => msgs ++ traverseFrom s limit fuel (some c)

/-- Full traversal starting from the empty cursor, with enough fuel for any
snapshot. -/
def traverse (s : List Row) (limit : Nat) : List Row :=
  traverseFrom s limit (s.length + 1) none

/-- Observable actions of a worker processing one broker delivery
(src/unnamed/part_002).  `insert` is one call of `TenantManager.insertMessage`
at a given attempt number with the delivery body; `count` increments
`messages_total`; `ack m` is `msg.Ack(m)`; `nack m r` is `msg.Nack(m, r)`;
`publish q b` is `amqpChannel.Publish("", q, ...)` of body `b`; `sleep k` is
`time.Sleep(k * time.Second)`. -/
inductive Event where
  | insert (attempt : Nat) (body : Nat)
  | count
  | ack (multiple : Bool)
  | nack (multiple : Bool) (requeue : Bool)
  | publish (queue : String) (body : Nat)
  | sleep (seconds : Nat)
deriving DecidableEq, Repr

/-- The environment and wiring of one `TenantConsumer` worker as far as one
delivery is concerned.  `hasDB` is `tc.manager != nil && tc.manager.DB != nil`;
`hasChannel` is `tc.amqpChannel != nil`; `insertOk a` says whether the store
insert at attempt `a` would succeed; `dlqOk` says whether the DLQ publish
would succeed; `tid` is `tc.ID` and `body` the raw delivery body. -/
structure Cfg where
  hasDB : Bool
  hasChannel : Bool
  tid : String
  body : Nat
  insertOk : Nat → Bool
  dlqOk : Bool

/-- Embeds `TenantConsumer.sendToDLQ` (src/unnamed/part_002, lines 84-102): nil
channel returns silently; otherwise publish the raw body to
`tenant_{id}_dlq`, then `Ack(false)` on success or `Nack(false, true)` on
failure. -/
def sendToDLQ (cfg : Cfg) : List Event :=
  if cfg.hasChannel = false then []
  else
    Event.publish ("tenant_" ++ cfg.tid ++ "_dlq") cfg.body ::
      (if cfg.dlqOk then [Event.ack false] else [Event.nack false true])

/-- Mirrors `maxRetry := 3` in the worker body (part_002, line 125). -/
def maxRetry : Nat := 3

/-- The retry loop `for attempt := 1; attempt <= maxRetry; attempt++` of the
worker body (part_002, lines 126-139), as the trace of events it emits from a
given attempt on; `fuel` is `maxRetry - attempt + 1`, the number of remaining
iterations.  Per iteration: insert is called only when the consumer has a
manager with a DB (otherwise `err` stays nil); on `err == nil` count, ack and
break; otherwise route to the DLQ when `attempt == maxRetry`, then sleep
`attempt` seconds and continue. -/
def attemptFrom (cfg : Cfg) : Nat → Nat → List Event
  | _, 0 => []
  | attempt, fuel + 1 =>
      let insEv := if cfg.hasDB then [Event.insert attempt cfg.body] else []
      if (cfg.hasDB && !(cfg.insertOk attempt)) = false then
        insEv ++ [Event.count, Event.ack false]
      else
        insEv ++ (if attempt = maxRetry then sendToDLQ cfg else []) ++
          (Event.sleep attempt :: attemptFrom cfg (attempt + 1) fuel)

/-- The full worker-body processing of one delivery pulled from the task
channel (part_002, lines 124-139): the retry loop started at attempt 1. -/
def processDelivery (cfg : Cfg) : List Event :=
  attemptFrom cfg 1 maxRetry

/-- Number of store-insert attempts in a trace. -/
def countInserts : List Event → Nat
  | [] => 0
  | Event.insert _ _ :: t => countInserts t + 1
  | _ :: t => countInserts t

/-- A trace settles its delivery if it contains a broker ack or nack. -/
def settled : List Event → Bool
  | [] => false
  | Event.ack _ :: _ => true
  | Event.nack _ _ :: _ => true
  | _ :: t => settled t

/-- The worker configuration produced by `TenantManager.AddTenantWithAMQP`
(part_002, lines 198-240) in the running application: `tc.manager = tm` with
`tm.DB` set (src/unnamed/part_003, app.Run) and `tc.amqpChannel = ch`. -/
def amqpCfg (tid : String) (body : Nat) (insertOk : Nat → Bool) (dlqOk : Bool) :
    Cfg :=
  ⟨true, true, tid, body, insertOk, dlqOk⟩

/-- The worker configuration produced by `TenantManager.AddTenant` (part_002,
lines 164-176): `tc.manager` and `tc.amqpChannel` are never set, so the
worker has neither a database nor a broker channel. -/
def addTenantCfg (tid : String) (body : Nat) (insertOk : Nat → Bool)
    (dlqOk : Bool) : Cfg :=
  ⟨false, false, tid, body, insertOk, dlqOk⟩

/-- The task submitted per delivery by `TenantService.consumeMessages`
(src/internal/service/tenant.go, lines 136-143): one `processMessage` insert,
then `Nack(false, true)` on error or `Ack(false)` on success.  `ok` says
whether the insert succeeded. -/
def consumeTaskEvents (body : Nat) (ok : Bool) : List Event :=
  Event.insert 1 body ::
    (if ok then [Event.ack false] else [Event.nack false true])

/-- The per-tenant consumer state relevant to lifecycle and resize
(src/unnamed/part_002, struct TenantConsumer): `token` identifies one
constructed consumer instance (each construction yields a fresh one),
`workers` is the `Workers` field, `stopChans` models `workerStopChans`
(`true` = still open), `live` is the number of worker goroutines currently
running, and `gauge` is the `tenant_workers` gauge value for this tenant. -/
structure Consumer where
  token : Nat
  workers : Nat
  stopChans : List Bool
  live : Nat
  gauge : Nat
deriving DecidableEq, Repr

/-- Embeds `TenantConsumer.startWorkers(n)` (part_002, lines 104-145): set the gauge
to `n`, allocate `n` fresh open stop channels and spawn `n` workers. -/
def startWorkers (c : Consumer) (n : Nat) : Consumer :=
  { c with stopChans := List.replicate n true, live := n, gauge := n }

/-- Embeds `TenantConsumer.stopWorkers` (part_002, lines 147-153): set the gauge to
0, close every stop channel and wait (`wg.Wait`) until no worker is live. -/
def stopWorkers (c : Consumer) : Consumer :=
  { c with stopChans := c.stopChans.map (fun _ => false), live := 0, gauge := 0 }

/-- Embeds `TenantConsumer.updateWorkers(newN)` (part_002, lines 155-162): set the
gauge to `newN`; if `newN` equals the current stop-channel count return,
otherwise stop all workers and start `newN` fresh ones. -/
def updateWorkers (c : Consumer) (newN : Nat) : Consumer :=
  let c1 := { c with gauge := newN }
  if newN = c1.stopChans.length then c1
  else startWorkers (stopWorkers c1) newN

/-- A consumer as constructed by `AddTenantWithAMQP` (part_002, lines
226-236): `Workers: 1`, then `startWorkers(1)`. -/
def newConsumer (tok : Nat) : Consumer :=
  startWorkers ⟨tok, 1, [], 0, 0⟩ 1

/-- Errors a Tenant Manager lifecycle call could surface.  `amqpFail` stands
for any failed broker call inside `AddTenantWithAMQP`; the remaining
constructors exist so that the error vocabulary of the specification is
expressible (the code never returns them). -/
inductive TMErr where
  | alreadyExists
  | notFound
  | invalidConfig
  | amqpFail
deriving DecidableEq, Repr

/-- The `TenantManager` registry state (part_002, lines 45-49): `consumers`
is the Go map `map[string]*TenantConsumer` as an association list,
`nextToken` numbers consumer constructions, and `spawnedTokens` records every
consumer ever constructed and started. -/
structure Mgr where
  consumers : List (String × Consumer)
  nextToken : Nat
  spawnedTokens : List Nat
deriving DecidableEq, Repr

/-- Go map assignment `m[id] = c`: replace the binding if the key is present,
otherwise add it. -/
def mapSet : List (String × Consumer) → String → Consumer →
    List (String × Consumer)
  | [], id, c => [(id, c)]
  | (k, v) :: t, id, c =>
      if k = id then (id, c) :: t else (k, v) :: mapSet t id c

/-- Go map lookup `m[id]`. -/
def lookupC (l : List (String × Consumer)) (id : String) : Option Consumer :=
  (l.find? (fun p => decide (p.1 = id))).map (fun p => p.2)

/-- Mirrors `NewTenantManager` (part_002, lines 73-77): an empty registry. -/
def mgr0 : Mgr := ⟨[], 0, []⟩

instance {α β : Type} [DecidableEq α] [DecidableEq β] :
    DecidableEq (Except α β) := fun a b =>
  match a, b with
  | Except.ok x, Except.ok y =>
      if h : x = y then Decidable.isTrue (congrArg Except.ok h)
      else Decidable.isFalse (fun hc => h (Except.ok.inj hc))
  | Except.error x, Except.error y =>
      if h : x = y then Decidable.isTrue (congrArg Except.error h)
      else Decidable.isFalse (fun hc => h (Except.error.inj hc))
  | Except.ok _, Except.error _ => Decidable.isFalse (fun hc => Except.noConfusion hc)
  | Except.error _, Except.ok _ => Decidable.isFalse (fun hc => Except.noConfusion hc)

/-- Embeds `TenantManager.AddTenantWithAMQP` (src/unnamed/part_002, lines 198-240).
Under the lock: declare the DLQ and main queue, open the consumer stream
(`brokerOk` collapses the success of these broker calls; on failure the
registry is untouched and the error is returned), construct a consumer with
one worker, start it, and assign it into the registry map.  There is no
presence check of `id`. -/
def addTenantWithAMQP (m : Mgr) (id : String) (brokerOk : Bool) :
    Except TMErr Mgr :=
  if brokerOk = false then Except.error TMErr.amqpFail
  else
    Except.ok
      { consumers := mapSet m.consumers id (newConsumer m.nextToken)
        nextToken := m.nextToken + 1
        spawnedTokens := m.spawnedTokens ++ [m.nextToken] }

/-- Embeds `TenantManager.UpdateConcurrency(id, workers)` (src/unnamed/part_002,
lines 189-196).  Under the lock: if the id is registered, set `c.Workers` and
call `c.updateWorkers(workers)`; otherwise do nothing.  No error is returned
in either case and the worker count is not validated. -/
def updateConcurrency (m : Mgr) (id : String) (n : Nat) : Mgr :=
  match lookupC m.consumers id with
  | none => m
  | some c =>
      { m with consumers :=
          mapSet m.consumers id (updateWorkers { c with workers := n } n) }

/-- Embeds `Handler.UpdateConcurrency` (the api handler stored after the SQL in
src/migrations/001_init_schema.up.sql, lines 144-162): missing id or an
undecodable body give 400; otherwise call the manager and answer 200.
`body = some n` models a decoded `{"workers": n}` request. -/
def handlerUpdateConcurrency (m : Mgr) (id : String) (body : Option Nat) :
    Nat × Mgr :=
  if id = "" then (400, m)
  else
    match body with
    | none => (400, m)
    | some n => (200, updateConcurrency m id n)

/-- Embeds the call `strings.ReplaceAll(tenantID, "-", "_")` in
`TenantService.createPartition` (src/internal/service/tenant.go, line 99),
specialised to the one-character pattern: each hyphen of the input is
replaced by an underscore. -/
def replaceHyphens : List Char → List Char
  | [] => []
  | c :: cs => (if c = '-' then '_' else c) :: replaceHyphens cs

/-- The partition child-table name `messages_tenant_<normalized id>` built in
`createPartition` (tenant.go, line 100). -/
def partitionName (tenantID : List Char) : List Char :=
  "messages_tenant_".toList ++ replaceHyphens tenantID

/-- The DDL issued by `createPartition` (tenant.go, lines 103-106): the
partition name appears as a quoted identifier, the tenant id as the list
value. -/
def createPartitionSQL (tenantID : List Char) : List Char :=
  "\n\t\tCREATE TABLE IF NOT EXISTS \"".toList ++ partitionName tenantID ++
    "\" PARTITION OF messages\n\t\tFOR VALUES IN (\x27".toList ++ tenantID ++
    "\x27)\n\t".toList

/-- The id of the last row of `l`, or the default `d` when `l` is empty: the
value the scan loop's `nextCursor` variable holds after appending the rows of
`l` on top of a previous value `d`. -/
def lastIdOr (l : List Row) (d : Option Nat) : Option Nat :=
  match l.getLast? with
  | some m => some m.id
  | none => d

/-- A concrete three-row snapshot (two rows share a timestamp), sorted by
`(created_at, id)`, used by witnesses. -/
def exS : List Row :=
  [⟨1, 0, 5, 10⟩, ⟨2, 0, 6, 10⟩, ⟨3, 0, 7, 20⟩]

/-- A concrete manager state whose registry holds tenant X, used by
witnesses and counterexamples. -/
def mgrX : Mgr :=
  ⟨[("X", newConsumer 0)], 1, [0]⟩

/-! Helper lemmas about worker traces. -/

theorem countInserts_nil : countInserts [] = 0 := rfl

theorem countInserts_cons_insert (a b : Nat) (t : List Event) :
    countInserts (Event.insert a b :: t) = countInserts t + 1 := rfl

theorem countInserts_cons_count (t : List Event) :
    countInserts (Event.count :: t) = countInserts t := rfl

theorem countInserts_cons_ack (m : Bool) (t : List Event) :
    countInserts (Event.ack m :: t) = countInserts t := rfl

theorem countInserts_cons_nack (m r : Bool) (t : List Event) :
    countInserts (Event.nack m r :: t) = countInserts t := rfl

theorem countInserts_cons_publish (q : String) (b : Nat) (t : List Event) :
    countInserts (Event.publish q b :: t) = countInserts t := rfl

theorem countInserts_cons_sleep (k : Nat) (t : List Event) :
    countInserts (Event.sleep k :: t) = countInserts t := rfl

theorem countInserts_append (a b : List Event) :
    countInserts (a ++ b) = countInserts a + countInserts b := by
  induction a with
  | nil => simp [countInserts_nil]
  | cons e t ih =>
      cases e with
      | insert x y =>
          rw [List.cons_append, countInserts_cons_insert,
            countInserts_cons_insert, ih]
          omega
      | count => rw [List.cons_append, countInserts_cons_count,
          countInserts_cons_count, ih]
      | ack m => rw [List.cons_append, countInserts_cons_ack,
          countInserts_cons_ack, ih]
      | nack m r => rw [List.cons_append, countInserts_cons_nack,
          countInserts_cons_nack, ih]
      | publish q c => rw [List.cons_append, countInserts_cons_publish,
          countInserts_cons_publish, ih]
      | sleep k => rw [List.cons_append, countInserts_cons_sleep,
          countInserts_cons_sleep, ih]

theorem countInserts_sendToDLQ (cfg : Cfg) : countInserts (sendToDLQ cfg) = 0 := by
  by_cases h : cfg.hasChannel <;> by_cases hd : cfg.dlqOk <;>
    simp [sendToDLQ, h, hd, countInserts_nil, countInserts_cons_publish,
      countInserts_cons_ack, countInserts_cons_nack]

theorem countInserts_attemptFrom (cfg : Cfg) :
    ∀ (f a : Nat), countInserts (attemptFrom cfg a f) ≤ f := by
  intro f
  induction f with
  | zero => intro a; simp [attemptFrom, countInserts_nil]
  | succ n ih =>
      intro a
      have hrec := ih (a + 1)
      cases hdb : cfg.hasDB with
      | false =>
          simp [attemptFrom, hdb, countInserts_cons_count,
            countInserts_cons_ack, countInserts_nil]
      | true =>
          cases hio : cfg.insertOk a with
          | true =>
              simp [attemptFrom, hdb, hio, countInserts_cons_insert,
                countInserts_cons_count, countInserts_cons_ack,
                countInserts_nil]
          | false =>
              by_cases hm : a = maxRetry
              · subst hm
                simp [attemptFrom, hdb, hio, countInserts_append,
                  countInserts_sendToDLQ, countInserts_cons_insert,
                  countInserts_cons_sleep]
                omega
              · simp [attemptFrom, hdb, hio, hm, countInserts_append,
                  countInserts_cons_insert, countInserts_cons_sleep]
                omega

/-- Complete trace of the AMQP-path worker (`AddTenantWithAMQP` consumer) on
one delivery, by cases on which insert attempt first succeeds. -/
theorem processDelivery_amqp (tid : String) (body : Nat) (io : Nat → Bool)
    (d : Bool) :
    processDelivery (amqpCfg tid body io d) =
      if io 1 = true then
        [Event.insert 1 body, Event.count, Event.ack false]
      else if io 2 = true then
        [Event.insert 1 body, Event.sleep 1, Event.insert 2 body, Event.count,
          Event.ack false]
      else if io 3 = true then
        [Event.insert 1 body, Event.sleep 1, Event.insert 2 body, Event.sleep 2,
          Event.insert 3 body, Event.count, Event.ack false]
      else
        [Event.insert 1 body, Event.sleep 1, Event.insert 2 body, Event.sleep 2,
          Event.insert 3 body,
          Event.publish ("tenant_" ++ tid ++ "_dlq") body] ++
          (if d = true then [Event.ack false] else [Event.nack false true]) ++
          [Event.sleep 3] := by
  by_cases h1 : io 1 <;> by_cases h2 : io 2 <;> by_cases h3 : io 3 <;>
    by_cases hd : d <;>
      simp [processDelivery, maxRetry, attemptFrom, amqpCfg, sendToDLQ,
        h1, h2, h3, hd]

/-- Trace of a worker of a consumer built by the broker-less `AddTenant`
path: no manager, hence `err` stays nil and the first iteration counts and
acks. -/
theorem processDelivery_addTenant (tid : String) (body : Nat)
    (io : Nat → Bool) (d : Bool) :
    processDelivery (addTenantCfg tid body io d) =
      [Event.count, Event.ack false] := by
  simp [processDelivery, maxRetry, attemptFrom, addTenantCfg]

/-- Claim C3: for every delivery processed by a worker the store insert is
attempted at most `maxRetry = 3` times before DLQ routing, and after a failed
attempt numbered `k < 3` the worker sleeps `k` seconds (`attempt x 1s`,
linear backoff) before the next attempt.  The first conjunct bounds the
insert attempts of any worker configuration; the second exhibits the full
worker trace of the AMQP consumer for every failure pattern, showing inserts
at attempts 1..3 interleaved with the backoff sleeps and DLQ routing only
after the third failed insert. -/
theorem retry_bound_and_backoff :
    (∀ cfg : Cfg, countInserts (processDelivery cfg) ≤ maxRetry) ∧
    (∀ (tid : String) (body : Nat) (io : Nat → Bool) (d : Bool),
      processDelivery (amqpCfg tid body io d) =
        if io 1 = true then
          [Event.insert 1 body, Event.count, Event.ack false]
        else if io 2 = true then
          [Event.insert 1 body, Event.sleep 1, Event.insert 2 body,
            Event.count, Event.ack false]
        else if io 3 = true then
          [Event.insert 1 body, Event.sleep 1, Event.insert 2 body,
            Event.sleep 2, Event.insert 3 body, Event.count, Event.ack false]
        else
          [Event.insert 1 body, Event.sleep 1, Event.insert 2 body,
            Event.sleep 2, Event.insert 3 body,
            Event.publish ("tenant_" ++ tid ++ "_dlq") body] ++
            (if d = true then [Event.ack false] else [Event.nack false true]) ++
            [Event.sleep 3]) :=
  ⟨fun cfg => countInserts_attemptFrom cfg maxRetry 1, processDelivery_amqp⟩

/-- Claim C4: when the insert has failed on all three allowed attempts, the
raw body is published to `tenant_{id}_dlq`; a successful publish is followed
by `Ack(false)` (multiple=false), a failed publish by `Nack(false, true)`
(requeue=true). -/
theorem dlq_on_final_failure (tid : String) (body : Nat) (io : Nat → Bool)
    (h1 : io 1 = false) (h2 : io 2 = false) (h3 : io 3 = false) :
    processDelivery (amqpCfg tid body io true) =
      [Event.insert 1 body, Event.sleep 1, Event.insert 2 body, Event.sleep 2,
        Event.insert 3 body, Event.publish ("tenant_" ++ tid ++ "_dlq") body,
        Event.ack false, Event.sleep 3] ∧
    processDelivery (amqpCfg tid body io false) =
      [Event.insert 1 body, Event.sleep 1, Event.insert 2 body, Event.sleep 2,
        Event.insert 3 body, Event.publish ("tenant_" ++ tid ++ "_dlq") body,
        Event.nack false true, Event.sleep 3] := by
  rw [processDelivery_amqp, processDelivery_amqp]
  simp [h1, h2, h3]

/-- Witness for C4 at a concrete tenant, body and failure pattern. -/
theorem dlq_on_final_failure_witness :
    processDelivery (amqpCfg "t" 7 (fun _ => false) true) =
      [Event.insert 1 7, Event.sleep 1, Event.insert 2 7, Event.sleep 2,
        Event.insert 3 7, Event.publish "tenant_t_dlq" 7, Event.ack false,
        Event.sleep 3] ∧
    processDelivery (amqpCfg "t" 7 (fun _ => false) false) =
      [Event.insert 1 7, Event.sleep 1, Event.insert 2 7, Event.sleep 2,
        Event.insert 3 7, Event.publish "tenant_t_dlq" 7,
        Event.nack false true, Event.sleep 3] :=
  dlq_on_final_failure "t" 7 (fun _ => false) rfl rfl rfl

/-- Claim C5: every delivery processed by a worker ends with a broker ack or
nack, for both consumer construction paths of the TenantManager and for the
task closure submitted by `TenantService.consumeMessages`; none ends with
neither. -/
theorem delivery_always_settled :
    (∀ (tid : String) (body : Nat) (io : Nat → Bool) (d : Bool),
      settled (processDelivery (amqpCfg tid body io d)) = true) ∧
    (∀ (tid : String) (body : Nat) (io : Nat → Bool) (d : Bool),
      settled (processDelivery (addTenantCfg tid body io d)) = true) ∧
    (∀ (body : Nat) (ok : Bool), settled (consumeTaskEvents body ok) = true) := by
  refine ⟨?_, ?_, ?_⟩
  · intro tid body io d
    rw [processDelivery_amqp]
    by_cases h1 : io 1 <;> by_cases h2 : io 2 <;> by_cases h3 : io 3 <;>
      by_cases hd : d <;> simp [h1, h2, h3, hd, settled]
  · intro tid body io d
    rw [processDelivery_addTenant]
    rfl
  · intro body ok
    cases ok <;> rfl

/-- Claim C10: a worker of a consumer built by the broker-less `AddTenant`
path acks every delivery it dequeues and counts it in `messages_total`
without ever attempting a store insert. -/
theorem brokerless_ack_without_insert (tid : String) (body : Nat)
    (io : Nat → Bool) (d : Bool) :
    processDelivery (addTenantCfg tid body io d) =
      [Event.count, Event.ack false] ∧
    countInserts (processDelivery (addTenantCfg tid body io d)) = 0 := by
  refine ⟨processDelivery_addTenant tid body io d, ?_⟩
  rw [processDelivery_addTenant]
  rfl

/-! Helper lemmas about the registry and the worker pool. -/

theorem lookupC_mapSet (l : List (String × Consumer)) (id : String)
    (c : Consumer) : lookupC (mapSet l id c) id = some c := by
  induction l with
  | nil => simp [mapSet, lookupC, List.find?]
  | cons p t ih =>
      obtain ⟨k, v⟩ := p
      by_cases h : k = id
      · simp [mapSet, h, lookupC, List.find?]
      · simpa [mapSet, h, lookupC, List.find?] using ih

theorem updateWorkers_live (c : Consumer) (n : Nat)
    (h : c.live = c.stopChans.length) :
    (updateWorkers c n).live = n ∧ (updateWorkers c n).gauge = n := by
  rw [updateWorkers]
  by_cases hn : n = c.stopChans.length
  · simp [hn]
    omega
  · simp [hn, startWorkers, stopWorkers]

/-- Claim C6 counterexample: creating tenant X twice does not return an
AlreadyExists error; the second call succeeds, a second consumer is
constructed and started (two spawned consumers in total), and the registry
binding of X is replaced by the new consumer. -/
theorem duplicate_create_counterexample :
    (addTenantWithAMQP mgr0 "X" true).bind
        (fun m => addTenantWithAMQP m "X" true) ≠
      Except.error TMErr.alreadyExists ∧
    ((addTenantWithAMQP mgr0 "X" true).bind
        (fun m => addTenantWithAMQP m "X" true)).map
        (fun m => m.spawnedTokens.length) = Except.ok 2 ∧
    ((addTenantWithAMQP mgr0 "X" true).bind
        (fun m => addTenantWithAMQP m "X" true)).map
        (fun m => lookupC m.consumers "X") ≠
      (addTenantWithAMQP mgr0 "X" true).map
        (fun m => lookupC m.consumers "X") := by
  decide

/-- Claim C6 (amended): `AddTenantWithAMQP` performs no duplicate check:
for every registry state, creating a tenant id, present already or not,
succeeds (when the broker calls succeed), constructs and starts one more
consumer, and overwrites the registry binding of that id with the new
consumer. -/
theorem duplicate_create_overwrites (m : Mgr) (id : String) :
    addTenantWithAMQP m id true =
      Except.ok
        ⟨mapSet m.consumers id (newConsumer m.nextToken), m.nextToken + 1,
          m.spawnedTokens ++ [m.nextToken]⟩ ∧
    (addTenantWithAMQP m id true).map (fun m2 => m2.spawnedTokens.length) =
      Except.ok (m.spawnedTokens.length + 1) ∧
    (addTenantWithAMQP m id true).map (fun m2 => lookupC m2.consumers id) =
      Except.ok (some (newConsumer m.nextToken)) := by
  refine ⟨rfl, ?_, ?_⟩
  · simp [addTenantWithAMQP, Except.map]
  · simp [addTenantWithAMQP, Except.map, lookupC_mapSet]

/-- Claim C7 counterexample: with an empty registry, update_workers for
tenant X surfaces no NotFound error (the manager call is a silent no-op and
the HTTP handler answers 200, not 404), and with tenant X registered a
request of 0 workers, outside [1, MAX_WORKERS], is not rejected with
InvalidConfig but is passed to the resize path, leaving 0 live workers. -/
theorem update_workers_no_validation_counterexample :
    updateConcurrency mgr0 "X" 5 = mgr0 ∧
    handlerUpdateConcurrency mgr0 "X" (some 5) = (200, mgr0) ∧
    (handlerUpdateConcurrency mgrX "X" (some 0)).1 = 200 ∧
    (lookupC (handlerUpdateConcurrency mgrX "X" (some 0)).2.consumers "X").map
        (fun c => c.live) = some 0 := by
  decide

/-- Claim C7 (amended): update_workers validates nothing: an absent
tenant id is a silent no-op with no NotFound error, for a registered tenant
every n, in range or not, is written to the config and handed to the
consumer's resize path, and the HTTP handler answers 200 whenever the id is
non-empty and the body decodes. -/
theorem update_workers_silent (m : Mgr) (id : String) (n : Nat) :
    (lookupC m.consumers id = none → updateConcurrency m id n = m) ∧
    (∀ c : Consumer, lookupC m.consumers id = some c →
      lookupC (updateConcurrency m id n).consumers id =
        some (updateWorkers ⟨c.token, n, c.stopChans, c.live, c.gauge⟩ n)) ∧
    (¬ id = "" → handlerUpdateConcurrency m id (some n) =
      (200, updateConcurrency m id n)) := by
  refine ⟨?_, ?_, ?_⟩
  · intro h
    simp [updateConcurrency, h]
  · intro c hc
    simp [updateConcurrency, hc, lookupC_mapSet]
  · intro h
    simp [handlerUpdateConcurrency, h]

/-- Witness for the amended C7 at concrete registries, discharging each
branch hypothesis. -/
theorem update_workers_silent_witness :
    updateConcurrency mgr0 "X" 5 = mgr0 ∧
    lookupC (updateConcurrency mgrX "X" 0).consumers "X" =
      some (updateWorkers ⟨0, 0, [true], 1, 1⟩ 0) ∧
    handlerUpdateConcurrency mgrX "X" (some 2) =
      (200, updateConcurrency mgrX "X" 2) :=
  ⟨(update_workers_silent mgr0 "X" 5).1 (by decide),
    (update_workers_silent mgrX "X" 0).2.1 (newConsumer 0) (by decide),
    (update_workers_silent mgrX "X" 2).2.2 (by decide)⟩

/-- Claim C8: after update_workers for a registered tenant whose consumer
has as many live workers as stop channels (true of every consumer the code
constructs), the tenant's consumer has exactly n live workers, and the
worker gauge reads n: the resize postcondition on the consumer worker
set. -/
theorem update_workers_converges (m : Mgr) (t : String) (n : Nat)
    (c : Consumer) (hreg : lookupC m.consumers t = some c)
    (hinv : c.live = c.stopChans.length) :
    (lookupC (updateConcurrency m t n).consumers t).map (fun k => k.live) =
      some n ∧
    (lookupC (updateConcurrency m t n).consumers t).map (fun k => k.gauge) =
      some n := by
  have h2 := updateWorkers_live ⟨c.token, n, c.stopChans, c.live, c.gauge⟩ n hinv
  simp [updateConcurrency, hreg, lookupC_mapSet]
  exact ⟨h2.1, h2.2⟩

/-- Witness for C8 at a concrete registry holding tenant X with one live
worker, resized to five. -/
theorem update_workers_converges_witness :
    (lookupC (updateConcurrency mgrX "X" 5).consumers "X").map
        (fun k => k.live) = some 5 ∧
    (lookupC (updateConcurrency mgrX "X" 5).consumers "X").map
        (fun k => k.gauge) = some 5 :=
  update_workers_converges mgrX "X" 5 (newConsumer 0) (by decide) (by decide)

/-! Helper lemmas about partition naming. -/

theorem replaceHyphens_eq_map (l : List Char) :
    replaceHyphens l = l.map (fun ch => if ch = '-' then '_' else ch) := by
  induction l with
  | nil => rfl
  | cons c cs ih => simp [replaceHyphens, ih]

theorem contains_append_or (a b : List Char) (x : Char) :
    (a ++ b).contains x = (a.contains x || b.contains x) := by
  induction a with
  | nil => simp
  | cons c cs ih => simp [List.contains_cons, ih, Bool.or_assoc]

theorem contains_hyphen_replaceHyphens (l : List Char) :
    (replaceHyphens l).contains '-' = false := by
  induction l with
  | nil => rfl
  | cons c cs ih =>
      by_cases h : c = '-'
      · subst h
        rw [replaceHyphens, if_pos rfl, List.contains_cons, ih]
        decide
      · rw [replaceHyphens, if_neg h, List.contains_cons, ih,
          Bool.or_false, beq_eq_false_iff_ne]
        exact fun hh => h hh.symm

theorem contains_hyphen_partitionName (t : List Char) :
    (partitionName t).contains '-' = false := by
  rw [partitionName, contains_append_or, contains_hyphen_replaceHyphens]
  decide

/-- Claim C9: createPartition derives the child partition name from the
tenant UUID by replacing every hyphen with an underscore, producing the
identifier messages_tenant_<uuid_with_underscores> (no hyphen remains), and
the issued DDL wraps that identifier in double quotes. -/
theorem partition_name_scheme (tenantID : List Char) :
    partitionName tenantID =
      "messages_tenant_".toList ++
        tenantID.map (fun ch => if ch = '-' then '_' else ch) ∧
    (partitionName tenantID).contains '-' = false ∧
    createPartitionSQL tenantID =
      "\n\t\tCREATE TABLE IF NOT EXISTS ".toList ++
        ('\"' :: (partitionName tenantID ++
          ('\"' :: (" PARTITION OF messages\n\t\tFOR VALUES IN (\x27".toList ++
            (tenantID ++ "\x27)\n\t".toList))))) := by
  refine ⟨?_, contains_hyphen_partitionName tenantID, ?_⟩
  · rw [partitionName, replaceHyphens_eq_map]
  · rw [createPartitionSQL]
    have h1 : "\n\t\tCREATE TABLE IF NOT EXISTS \"".toList =
        "\n\t\tCREATE TABLE IF NOT EXISTS ".toList ++ ['\"'] := by decide
    have h2 : "\" PARTITION OF messages\n\t\tFOR VALUES IN (\x27".toList =
        '\"' :: " PARTITION OF messages\n\t\tFOR VALUES IN (\x27".toList := by
      decide
    rw [h1, h2]
    simp [List.append_assoc]

/-! Helper lemmas about pagination: the scan loop. -/

theorem lastIdOr_nil (d : Option Nat) : lastIdOr [] d = d := rfl

theorem lastIdOr_cons (m : Row) (l : List Row) (d : Option Nat) :
    lastIdOr (m :: l) d = lastIdOr l (some m.id) := by
  cases l with
  | nil => rfl
  | cons b t =>
      rw [lastIdOr, lastIdOr, List.getLast?_cons_cons]
      cases h : (b :: t).getLast? with
      | none => exact absurd (List.getLast?_eq_none_iff.mp h) (by simp)
      | some x => rfl

theorem lastIdOr_none_eq (l : List Row) :
    lastIdOr l none = l.getLast?.map (fun r => r.id) := by
  cases h : l.getLast? <;> simp [lastIdOr, h]

theorem foldl_scanStep (limit : Nat) :
    ∀ (rows acc : List Row) (cur : Option Nat), acc.length ≤ limit →
      rows.foldl (scanStep limit) (acc, cur) =
        (acc ++ rows.take (limit - acc.length),
          lastIdOr (rows.take (limit - acc.length)) cur) := by
  intro rows
  induction rows with
  | nil => intro acc cur h; simp [lastIdOr_nil]
  | cons m t ih =>
      intro acc cur h
      rw [List.foldl_cons]
      by_cases hlt : acc.length < limit
      · have hstep : scanStep limit (acc, cur) m = (acc ++ [m], some m.id) := by
          simp [scanStep, hlt]
        have h2 : (acc ++ [m]).length ≤ limit := by
          simp
          omega
        rw [hstep, ih (acc ++ [m]) (some m.id) h2]
        have hk : limit - acc.length = (limit - (acc ++ [m]).length) + 1 := by
          simp
          omega
        rw [hk, List.take_succ_cons, lastIdOr_cons]
        have hlen : limit - (acc ++ [m]).length = limit - (acc.length + 1) := by
          simp
        rw [hlen, List.append_cons]
        simp
      · have hstep : scanStep limit (acc, cur) m = (acc, cur) := by
          simp [scanStep, hlt]
        have hz : limit - acc.length = 0 := by omega
        rw [hstep, ih acc cur h, hz]
        simp [lastIdOr_nil]

theorem scanRows_eq (rows : List Row) (limit : Nat) :
    scanRows rows limit =
      (rows.take limit,
        if limit ≤ rows.length then lastIdOr (rows.take limit) none
        else none) := by
  have hf := foldl_scanStep limit rows [] none (by simp)
  simp only [List.length_nil, Nat.sub_zero, List.nil_append] at hf
  rw [scanRows]
  simp only [hf]
  by_cases h : limit ≤ rows.length
  · have hl : (rows.take limit).length = limit := by
      simp [List.length_take]
      omega
    rw [hl, if_neg (by omega), if_pos h]
  · have hl : (rows.take limit).length = rows.length := by
      simp [List.length_take]
      omega
    rw [hl, if_pos (by omega), if_neg h]

theorem scanRows_take_succ (t : List Row) (limit : Nat) :
    scanRows (t.take (limit + 1)) limit =
      (t.take limit,
        if limit ≤ t.length then lastIdOr (t.take limit) none else none) := by
  rw [scanRows_eq]
  have h1 : (t.take (limit + 1)).take limit = t.take limit := by
    rw [List.take_take]
    congr 1
    omega
  by_cases h : limit ≤ t.length
  · have h2 : limit ≤ (t.take (limit + 1)).length := by
      simp [List.length_take]
      omega
    rw [h1, if_pos h2, if_pos h]
  · have h2 : ¬ limit ≤ (t.take (limit + 1)).length := by
      simp [List.length_take]
      omega
    rw [h1, if_neg h2, if_neg h]

/-- Claim C2: on every call of GetMessages, `next_cursor` is the id of the
last returned row when the page holds exactly `limit` rows, and is empty
(`none`, the empty string) whenever fewer than `limit` rows were returned,
the empty page included. -/
theorem next_cursor_rule (s : List Row) (cursor : Option Nat) (limit : Nat) :
    ((getMessages s cursor limit).1.length = limit →
      (getMessages s cursor limit).2 =
        ((getMessages s cursor limit).1.getLast?).map (fun r => r.id)) ∧
    ((getMessages s cursor limit).1.length < limit →
      (getMessages s cursor limit).2 = none) := by
  have hq : getMessages s cursor limit =
      scanRows (queryRows s cursor limit) limit := rfl
  rw [hq, scanRows_eq]
  dsimp only
  constructor
  · intro h
    rw [List.length_take] at h
    have hlen : limit ≤ (queryRows s cursor limit).length := by omega
    rw [if_pos hlen, lastIdOr_none_eq]
  · intro h
    rw [List.length_take] at h
    rw [if_neg (by omega)]

/-- Witness for C2: a full page of two rows carries the last id as cursor; a
short page (limit five over three rows) carries the empty cursor. -/
theorem next_cursor_rule_witness :
    (getMessages exS none 2).2 =
      ((getMessages exS none 2).1.getLast?).map (fun r => r.id) ∧
    (getMessages exS none 5).2 = none :=
  ⟨(next_cursor_rule exS none 2).1 (by decide),
    (next_cursor_rule exS none 5).2 (by decide)⟩

/-! Helper lemmas about pagination: the cursor anchor and the filter. -/

theorem keyLtb_irrefl (a : Row) : keyLtb a a = false := by
  simp [keyLtb]

theorem keyLtb_asymm (a b : Row) (h : keyLtb a b = true) :
    keyLtb b a = false := by
  simp [keyLtb] at h ⊢
  omega

theorem find?_pairwise_ne (s : List Row)
    (hids : s.Pairwise (fun a b => a.id ≠ b.id)) :
    ∀ (i : Nat) (hi : i < s.length),
      s.find? (fun r => decide (r.id = (s.get ⟨i, hi⟩).id)) =
        some (s.get ⟨i, hi⟩) := by
  induction s with
  | nil => intro i hi; exact absurd hi (by simp)
  | cons x t ih =>
      intro i hi
      cases i with
      | zero => simp [List.find?_cons_of_pos]
      | succ j =>
          have hj : j < t.length := by simpa using hi
          have hg : (x :: t).get ⟨j + 1, hi⟩ = t.get ⟨j, hj⟩ := rfl
          rw [hg]
          have hx : ∀ y ∈ t, x.id ≠ y.id := (List.pairwise_cons.mp hids).1
          have hmem : t.get ⟨j, hj⟩ ∈ t := List.get_mem t j hj
          have hfalse : decide (x.id = (t.get ⟨j, hj⟩).id) = false := by
            simp only [decide_eq_false_iff_not]
            exact hx (t.get ⟨j, hj⟩) hmem
          simp only [List.find?, hfalse]
          exact ih (List.pairwise_cons.mp hids).2 j hj

theorem cursorCreatedAt_get (s : List Row)
    (hids : s.Pairwise (fun a b => a.id ≠ b.id)) (i : Nat)
    (hi : i < s.length) :
    cursorCreatedAt s ((s.get ⟨i, hi⟩).id) =
      some ((s.get ⟨i, hi⟩).createdAt) := by
  rw [cursorCreatedAt, find?_pairwise_ne s hids i hi]
  rfl

theorem cursorPred_eq_keyLtb (s : List Row)
    (hids : s.Pairwise (fun a b => a.id ≠ b.id)) (i : Nat)
    (hi : i < s.length) (r : Row) :
    cursorPred s ((s.get ⟨i, hi⟩).id) r = keyLtb (s.get ⟨i, hi⟩) r := by
  rw [cursorPred, cursorCreatedAt_get s hids i hi]
  rfl

theorem filter_keyLtb_eq_drop (s : List Row)
    (hs : s.Pairwise (fun a b => keyLtb a b = true)) :
    ∀ (i : Nat) (hi : i < s.length),
      s.filter (keyLtb (s.get ⟨i, hi⟩)) = s.drop (i + 1) := by
  induction s with
  | nil => intro i hi; exact absurd hi (by simp)
  | cons x t ih =>
      intro i hi
      have hx : ∀ y ∈ t, keyLtb x y = true := (List.pairwise_cons.mp hs).1
      have ht := (List.pairwise_cons.mp hs).2
      cases i with
      | zero =>
          have hg : (x :: t).get ⟨0, hi⟩ = x := rfl
          rw [hg, List.filter_cons, if_neg (by simp [keyLtb_irrefl]),
            List.filter_eq_self.mpr hx]
          rfl
      | succ j =>
          have hj : j < t.length := by simpa using hi
          have hg : (x :: t).get ⟨j + 1, hi⟩ = t.get ⟨j, hj⟩ := rfl
          rw [hg]
          have hmem : t.get ⟨j, hj⟩ ∈ t := List.get_mem t j hj
          have hax : keyLtb (t.get ⟨j, hj⟩) x = false :=
            keyLtb_asymm x (t.get ⟨j, hj⟩) (hx (t.get ⟨j, hj⟩) hmem)
          rw [List.filter_cons, if_neg (by rw [hax]; simp)]
          exact ih ht j hj

theorem filter_cursorPred_eq_drop (s : List Row)
    (hs : s.Pairwise (fun a b => keyLtb a b = true))
    (hids : s.Pairwise (fun a b => a.id ≠ b.id)) (i : Nat)
    (hi : i < s.length) :
    s.filter (cursorPred s ((s.get ⟨i, hi⟩).id)) = s.drop (i + 1) := by
  have hpt : ∀ r ∈ s, cursorPred s ((s.get ⟨i, hi⟩).id) r =
      keyLtb (s.get ⟨i, hi⟩) r :=
    fun r _ => cursorPred_eq_keyLtb s hids i hi r
  rw [List.filter_congr hpt, filter_keyLtb_eq_drop s hs i hi]

/-! Helper lemmas about pagination: page characterization and traversal. -/

theorem getMessages_none_eq (s : List Row) (limit : Nat) :
    getMessages s none limit =
      (s.take limit,
        if limit ≤ s.length then lastIdOr (s.take limit) none else none) :=
  scanRows_take_succ s limit

theorem getMessages_cursor_eq (s : List Row)
    (hs : s.Pairwise (fun a b => keyLtb a b = true))
    (hids : s.Pairwise (fun a b => a.id ≠ b.id)) (i : Nat)
    (hi : i < s.length) (limit : Nat) :
    getMessages s (some ((s.get ⟨i, hi⟩).id)) limit =
      ((s.drop (i + 1)).take limit,
        if limit ≤ (s.drop (i + 1)).length then
          lastIdOr ((s.drop (i + 1)).take limit) none
        else none) := by
  have hq : getMessages s (some ((s.get ⟨i, hi⟩).id)) limit =
      scanRows ((s.filter (cursorPred s ((s.get ⟨i, hi⟩).id))).take (limit + 1))
        limit := rfl
  rw [hq, filter_cursorPred_eq_drop s hs hids i hi,
    scanRows_take_succ (s.drop (i + 1)) limit]

theorem lastIdOr_take_eq (t : List Row) (limit : Nat) (h1 : 1 ≤ limit)
    (h2 : limit ≤ t.length) :
    lastIdOr (t.take limit) none =
      some ((t.get ⟨limit - 1, by omega⟩).id) := by
  rw [lastIdOr_none_eq, List.getLast?_eq_getElem?]
  have hlen : (t.take limit).length = limit := by
    simp [List.length_take]
    omega
  rw [hlen, List.getElem?_take_of_lt (by omega : limit - 1 < limit),
    List.getElem?_eq_getElem (by omega : limit - 1 < t.length)]
  simp [List.get_eq_getElem]

theorem traverseFrom_get (s : List Row) (limit : Nat)
    (hs : s.Pairwise (fun a b => keyLtb a b = true))
    (hids : s.Pairwise (fun a b => a.id ≠ b.id)) (hl : 1 ≤ limit) :
    ∀ (fuel i : Nat) (hi : i < s.length), s.length - i ≤ fuel →
      traverseFrom s limit fuel (some ((s.get ⟨i, hi⟩).id)) = s.drop (i + 1) := by
  intro fuel
  induction fuel with
  | zero => intro i hi hfu; exact absurd hi (by omega)
  | succ n ih =>
      intro i hi hfu
      simp only [traverseFrom]
      rw [getMessages_cursor_eq s hs hids i hi limit]
      have hlen : (s.drop (i + 1)).length = s.length - (i + 1) :=
        List.length_drop _ _
      by_cases h : limit ≤ (s.drop (i + 1)).length
      · rw [if_pos h, lastIdOr_take_eq (s.drop (i + 1)) limit hl h]
        have hbound : i + limit < s.length := by omega
        have hb3 : (i + 1) + (limit - 1) < s.length := by omega
        have hgd := List.get_drop s hb3
        dsimp only
        rw [← hgd]
        have hidx : (i + 1) + (limit - 1) = i + limit := by omega
        simp only [hidx]
        rw [ih (i + limit) hbound (by omega)]
        have hdd : (s.drop (i + 1)).drop limit = s.drop (i + limit + 1) := by
          rw [List.drop_drop]
          congr 1
          omega
        rw [← hdd, List.take_append_drop]
      · rw [if_neg h]
        dsimp only
        exact List.take_of_length_le (by omega)

/-- Claim C1: over a fixed snapshot, represented by its ascending
`(created_at, id)` enumeration `s` (hypotheses: `s` is strictly sorted by
that key and ids are pairwise distinct, as UUIDs are), iterating GetMessages
from the empty cursor and following each `next_cursor` until it is empty
returns exactly `s`: every row of the snapshot exactly once, in ascending
`(created_at, id)` order. -/
theorem pagination_traversal_total (s : List Row) (limit : Nat)
    (hs : s.Pairwise (fun a b => keyLtb a b = true))
    (hids : s.Pairwise (fun a b => a.id ≠ b.id)) (hl : 1 ≤ limit) :
    traverse s limit = s := by
  rw [traverse]
  simp only [traverseFrom]
  rw [getMessages_none_eq]
  by_cases h : limit ≤ s.length
  · rw [if_pos h, lastIdOr_take_eq s limit hl h]
    dsimp only
    rw [traverseFrom_get s limit hs hids hl s.length (limit - 1) (by omega)
      (by omega)]
    have hidx : limit - 1 + 1 = limit := by omega
    rw [hidx, List.take_append_drop]
  · rw [if_neg h]
    dsimp only
    exact List.take_of_length_le (by omega)

/-- Witness for C1: the three-row snapshot with a timestamp tie, traversed
with pages of two. -/
theorem pagination_traversal_total_witness : traverse exS 2 = exS :=
  pagination_traversal_total exS 2 (by decide) (by decide) (by decide)

